import Mathlib

/-!
Verification of the object-graph scanning engine of the mark-sweep collector
(`src/gc/mark_sweep-inl.h`).  The scanner is shallowly embedded: heap state is
an explicit record of read-only accessor functions, and the sequence of
visitor invocations and deferred-reference-hook invocations performed by a
scan is collected as an explicit event trace, since the C++ code interacts
with the template visitor only by calling it in a fixed order and discarding
the result.
-/

namespace art

/-- One observable action of a scan: either an invocation of the caller
supplied reference visitor, `visitor(obj, ref, field_offset, is_static)`, or
an invocation of the deferred-reference hook `DelayReferenceReferent(obj)`
(the hook itself is external to the excerpt; only its invocation is
recorded). -/
inductive Event where
  | visit (obj : Nat) (ref : Nat) (field_offset : Nat) (is_static : Bool)
  | delayRef (obj : Nat)
deriving DecidableEq, Repr

/-- The static-flag argument of a visitor invocation (`none` for hook
invocations, which carry no such flag). -/
def Event.staticFlag : Event → Option Bool
  | .visit _ _ _ s => some s
  | .delayRef _ => none

/-- Whether the event is a deferred-reference-hook invocation. -/
def Event.isDelay : Event → Bool
  | .visit _ _ _ _ => false
  | .delayRef _ => true

/-- The field offsets of the visitor invocations in a trace. -/
def visitOffsets (evs : List Event) : List Nat :=
  evs.filterMap fun e => match e with
    | .visit _ _ off _ => some off
    | .delayRef _ => none

/-- Per-class metadata consulted by the scanner (`mirror::Class`).
`instanceFields` and `staticFields` are the offsets of the declared
reference fields in declaration-index order, backing
`NumReferenceInstanceFields`/`GetInstanceField(i)->GetOffset()` and their
static counterparts.  `referentOffset` is Modelled from the spec: the
referent slot of a reference-class object (the slot handed to the deferred
hook); the field itself lives in class metadata outside the excerpt. -/
structure ClassInfo where
  superClass : Option Nat
  isArrayClass : Bool
  isObjectArrayClass : Bool
  isReferenceClass : Bool
  referenceInstanceOffsets : Nat
  referenceStaticOffsets : Nat
  instanceFields : List Nat
  staticFields : List Nat
  referentOffset : Nat

/-- The read-only heap snapshot a scan runs against.  Objects and classes are
identified by numerals; a Class object is identified with the class it
describes, so the `AsClass` / `AsObjectArray` casts of the source are the
identity on identifiers.  `fieldObj` is `GetFieldObject`, `arrayElem` is
`ObjectArray::GetWithoutChecks`, `marked` is the external mark-bitmap query
`IsMarked`, `javaLangClass` is `mirror::Class::GetJavaLangClass()`, and
`classBound` bounds the depth of the (acyclic, finite) class hierarchy. -/
structure Heap where
  classOf : Nat → Nat
  classInfo : Nat → ClassInfo
  fieldObj : Nat → Nat → Nat
  arrayLength : Nat → Nat
  arrayElem : Nat → Nat → Nat
  marked : Nat → Bool
  javaLangClass : Nat
  classBound : Nat

/-- The MarkSweep collector state visible to the excerpt: the cached
`java_lang_Class_` pointer and the three instrumentation counters. -/
structure MarkSweep where
  java_lang_Class_ : Nat
  class_count_ : Nat
  array_count_ : Nat
  other_count_ : Nat
deriving DecidableEq, Repr

/-- Outcome of `ScanObjectVisit`: either abnormal termination through
`LOG(FATAL)` (with `dumped_spaces` recording that `heap_->DumpSpaces()` ran
first), or normal completion with the event trace and the updated collector
state. -/
inductive ScanResult where
  | fatal (dumped_spaces : Bool) (obj : Nat)
  | ok (events : List Event) (ms : MarkSweep)
deriving DecidableEq, Repr

/-- The event trace of a scan outcome (empty when the scan aborted). -/
def ScanResult.events : ScanResult → List Event
  | .fatal _ _ => []
  | .ok evs _ => evs

/-- Modelled from the spec: the sentinel value of the field-layout encoding
meaning that no reference-offset bitmap exists and the class hierarchy must
be walked explicitly (`CLASS_WALK_SUPER`, defined outside the excerpt). -/
def CLASS_WALK_SUPER : Nat := 3

/-- Modelled from the spec: the most significant bit of the 32-bit
field-layout encoding (`CLASS_HIGH_BIT`, defined outside the excerpt). -/
def CLASS_HIGH_BIT : Nat := 2 ^ 31

/-- Modelled from the spec: the offset increment per bit position of the
fixed linear bit-position-to-field-offset mapping (`CLASS_OFFSET_ALIGNMENT`,
defined outside the excerpt). -/
def CLASS_OFFSET_ALIGNMENT : Nat := 4

/-- Modelled from the spec: the offset of the first instance field after the
object header, the base of the linear mapping (`CLASS_SMALLEST_OFFSET`,
defined outside the excerpt). -/
def CLASS_SMALLEST_OFFSET : Nat := 8

/-- Modelled from the spec: the fixed linear mapping from a leading-zero
count to a field offset (`CLASS_OFFSET_FROM_CLZ`, defined outside the
excerpt). -/
def CLASS_OFFSET_FROM_CLZ (right_shift : Nat) : Nat :=
  right_shift * CLASS_OFFSET_ALIGNMENT + CLASS_SMALLEST_OFFSET

/-- Modelled from the spec: every object stores the reference to its Class
at a fixed offset, offset 0 of its layout (`mirror::Object::ClassOffset()`,
defined outside the excerpt). -/
def OBJECT_CLASS_OFFSET : Nat := 0

/-- Modelled from the spec: the width of one reference slot,
`sizeof(mirror::Object*)` (defined outside the excerpt). -/
def REFERENCE_WIDTH : Nat := 4

/-- Modelled from the spec: the offset of the element data section of an
array, `mirror::Array::DataOffset(width).Int32Value()` (defined outside the
excerpt). -/
def ARRAY_DATA_OFFSET : Nat := 12

/-- Modelled from the spec: the count-leading-zeros primitive on a nonzero
32-bit value (the `CLZ` macro, defined outside the excerpt): 32 minus the
bit length, computed as the number of exponents `i < 33` with `2 ^ i ≤ v`
(the bit length of `v`) subtracted from 32. -/
def CLZ (v : Nat) : Nat :=
  32 - (List.range 33).countP (fun i => decide (2 ^ i ≤ v))

/-- One clearing step of the fast-path loop:
`ref_offsets &= ~(CLASS_HIGH_BIT >> right_shift)` with
`right_shift = CLZ(ref_offsets)`; the complement `~` is the 32-bit one,
written as xor against `2 ^ 32 - 1`. -/
def clearTop (v : Nat) : Nat :=
  v &&& ((2 ^ 32 - 1) ^^^ (CLASS_HIGH_BIT >>> CLZ v))

/-- The fast-path loop body of `VisitFieldsReferences` with explicit fuel.
Each iteration strictly decreases `v` (proved below), so fuel `v + 1` always
exceeds the iteration count and the fuel guard is never reached; the fuel
only makes the `while (ref_offsets != 0)` loop structurally recursive. -/
def visitRefBitsF (h : Heap) (obj : Nat) (is_static : Bool) : Nat → Nat → List Event
  | 0, _ => []
  | fuel + 1, v =>
    if v = 0 then []
    else
      Event.visit obj (h.fieldObj obj (CLASS_OFFSET_FROM_CLZ (CLZ v)))
          (CLASS_OFFSET_FROM_CLZ (CLZ v)) is_static
        :: visitRefBitsF h obj is_static fuel (clearTop v)

/-- The fast path of `VisitFieldsReferences`: the bitmap-decoding loop
(lines 116-122 of the source), run with always-sufficient fuel. -/
def visitRefBits (h : Heap) (obj : Nat) (is_static : Bool) (v : Nat) : List Event :=
  visitRefBitsF h obj is_static (v + 1) v

/-- The slow path of `VisitFieldsReferences` (lines 128-141 of the source):
the outer loop over the class hierarchy, with the inner loop over that
level's declared reference fields rendered as a map over the declared
offsets.  In static mode the successor class is `NULL`, so only the starting
class is considered; fuel bounds the hierarchy walk (the hierarchy is finite
and acyclic at runtime, and callers pass the heap's depth bound). -/
def visitSuperWalk (h : Heap) (obj : Nat) (is_static : Bool) : Nat → Option Nat → List Event
  | _, none => []
  | 0, some _ => []
  | fuel + 1, some klass =>
    ((if is_static then (h.classInfo klass).staticFields
      else (h.classInfo klass).instanceFields).map fun off =>
        Event.visit obj (h.fieldObj obj off) off is_static)
      ++ visitSuperWalk h obj is_static fuel
          (if is_static then none else (h.classInfo klass).superClass)

/-- `MarkSweep::VisitFieldsReferences` (lines 111-143 of the source).  The
`ref_offsets` parameter has type `uint32_t`, so it is reduced mod `2 ^ 32`
on entry. -/
def VisitFieldsReferences (h : Heap) (obj : Nat) (ref_offsets : Nat) (is_static : Bool) :
    List Event :=
  let r := ref_offsets % 2 ^ 32
  if r ≠ CLASS_WALK_SUPER then
    visitRefBits h obj is_static r
  else
    visitSuperWalk h obj is_static h.classBound
      (some (if is_static then obj else h.classOf obj))

/-- `MarkSweep::VisitInstanceFieldsReferences` (lines 86-93 of the source). -/
def VisitInstanceFieldsReferences (h : Heap) (klass obj : Nat) : List Event :=
  VisitFieldsReferences h obj (h.classInfo klass).referenceInstanceOffsets false

/-- `MarkSweep::VisitStaticFieldsReferences` (lines 103-109 of the source). -/
def VisitStaticFieldsReferences (h : Heap) (klass : Nat) : List Event :=
  VisitFieldsReferences h klass (h.classInfo klass).referenceStaticOffsets true

/-- `MarkSweep::VisitClassReferences` (lines 95-101 of the source). -/
def VisitClassReferences (h : Heap) (klass obj : Nat) : List Event :=
  VisitInstanceFieldsReferences h klass obj ++ VisitStaticFieldsReferences h obj

/-- Modelled from the spec: `MarkSweep::VisitOtherReferences` (declared in
the header outside the excerpt): an ordinary instance visits its instance
fields through the field scanner in instance mode. -/
def VisitOtherReferences (h : Heap) (klass obj : Nat) : List Event :=
  VisitInstanceFieldsReferences h klass obj

/-- `MarkSweep::VisitObjectArrayReferences` (lines 145-155 of the source):
the loop over element indexes in ascending order, with
`offset = i * sizeof(mirror::Object*) + mirror::Array::DataOffset(...)`. -/
def VisitObjectArrayReferences (h : Heap) (array : Nat) : List Event :=
  (List.range (h.arrayLength array)).map fun i =>
    Event.visit array (h.arrayElem array i)
      (i * REFERENCE_WIDTH + ARRAY_DATA_OFFSET) false

/-- `MarkSweep::VisitObjectReferences` (lines 61-83 of the source). -/
def VisitObjectReferences (h : Heap) (obj : Nat) : List Event :=
  let klass := h.classOf obj
  if klass = h.javaLangClass then
    VisitClassReferences h klass obj
  else if (h.classInfo klass).isArrayClass then
    Event.visit obj klass OBJECT_CLASS_OFFSET false
      :: (if (h.classInfo klass).isObjectArrayClass then
            VisitObjectArrayReferences h obj
          else [])
  else
    VisitOtherReferences h klass obj

/-- `MarkSweep::ScanObjectVisit` (lines 27-59 of the source).  The two
compile-time constants `kIsDebugBuild` and `kCountScannedTypes` (defined
outside the excerpt) are passed as parameters; the heap that in the source
is reached through the `heap_` member is passed explicitly. -/
def ScanObjectVisit (kIsDebugBuild kCountScannedTypes : Bool) (ms : MarkSweep)
    (h : Heap) (obj : Nat) : ScanResult :=
  if kIsDebugBuild && !(h.marked obj) then
    ScanResult.fatal true obj
  else
    let klass := h.classOf obj
    if klass = ms.java_lang_Class_ then
      ScanResult.ok (VisitClassReferences h klass obj)
        (if kCountScannedTypes then
          { ms with class_count_ := ms.class_count_ + 1 }
         else ms)
    else if (h.classInfo klass).isArrayClass then
      ScanResult.ok
        (Event.visit obj klass OBJECT_CLASS_OFFSET false
          :: (if (h.classInfo klass).isObjectArrayClass then
                VisitObjectArrayReferences h obj
              else []))
        (if kCountScannedTypes then
          { ms with array_count_ := ms.array_count_ + 1 }
         else ms)
    else
      ScanResult.ok
        (VisitOtherReferences h klass obj
          ++ (if (h.classInfo klass).isReferenceClass then
                [Event.delayRef obj]
              else []))
        (if kCountScannedTypes then
          { ms with other_count_ := ms.other_count_ + 1 }
         else ms)

/-- Specification-side description of the fast-path order: the positions of
the set bits of `v` below 32, from most significant to least significant. -/
def setBitsDesc (v : Nat) : List Nat :=
  ((List.range 32).filter fun p => v.testBit p).reverse

/-- Specification-side description of the class ancestor chain: the list of
classes from `start` through successive `superClass` links up to the root,
or `none` when `fuel` steps do not reach the root. -/
def classChainF (h : Heap) : Nat → Option Nat → Option (List Nat)
  | _, none => some []
  | 0, some _ => none
  | fuel + 1, some klass =>
    match classChainF h fuel (h.classInfo klass).superClass with
    | some ks => some (klass :: ks)
    | none => none

/-! A small concrete heap used to exercise the definitions on closed inputs.
Class 1 is the meta-class; class 2 is an ordinary class with a bitmap
encoding; class 3 is a reference class; class 4 an object-array class;
class 5 a primitive-array class; class 6 uses the walk-super sentinel for
both encodings and has superclass 2.  Object 20 is unmarked. -/

/-- Class table of the concrete example heap. -/
def wClassInfo : Nat → ClassInfo
  | 1 => ⟨none, false, false, false, 4, 16, [], [], 0⟩
  | 2 => ⟨none, false, false, false, 10, 0, [8], [], 0⟩
  | 3 => ⟨none, false, false, true, 8, 0, [], [], 124⟩
  | 4 => ⟨none, true, true, false, 0, 0, [], [], 0⟩
  | 5 => ⟨none, true, false, false, 0, 0, [], [], 0⟩
  | 6 => ⟨some 2, false, false, false, 3, 3, [16, 20], [24], 0⟩
  | _ => ⟨none, false, false, false, 0, 0, [], [], 0⟩

/-- Class-of map of the concrete example heap. -/
def wClassOf : Nat → Nat
  | 1 => 1
  | 11 => 3
  | 12 => 4
  | 13 => 5
  | 14 => 6
  | _ => 2

/-- The concrete example heap. -/
def wHeap : Heap where
  classOf := wClassOf
  classInfo := wClassInfo
  fieldObj := fun o off => 100 * o + off
  arrayLength := fun a => if a = 12 then 2 else 0
  arrayElem := fun a i => if a = 12 && i == 0 then 10 else 0
  marked := fun o => decide (o ≠ 20)
  javaLangClass := 1
  classBound := 3

/-- A collector state whose cached meta-class pointer matches the heap. -/
def wMS : MarkSweep := ⟨1, 0, 0, 0⟩

/-! Helper lemmas about the fast-path bit scan. -/

theorem countP_range_le (l : Nat) : ∀ n, l < n →
    (List.range n).countP (fun i => decide (i ≤ l)) = l + 1 := by
  intro n
  induction n with
  | zero => omega
  | succ n ih =>
    intro hln
    rw [List.range_succ, List.countP_append]
    by_cases hl : l = n
    · subst hl
      have hfull : (List.range l).countP (fun i => decide (i ≤ l)) = (List.range l).length :=
        List.countP_eq_length.mpr (by
          intro a ha
          simp only [List.mem_range] at ha
          simp only [decide_eq_true_eq]
          omega)
      simp [hfull, List.length_range]
    · have hlt : l < n := by omega
      rw [ih hlt]
      simp only [List.countP_cons, List.countP_nil]
      have : ¬ (n ≤ l) := by omega
      simp [this]

theorem CLZ_eq {v : Nat} (h0 : v ≠ 0) (h32 : v < 2 ^ 32) :
    CLZ v = 31 - Nat.log2 v := by
  have hlog : Nat.log2 v < 32 := (Nat.log2_lt h0).mpr h32
  have hcongr : (List.range 33).countP (fun i => decide (2 ^ i ≤ v)) =
      (List.range 33).countP (fun i => decide (i ≤ Nat.log2 v)) := by
    refine List.countP_congr ?_
    intro i _
    simp only [decide_eq_true_eq]
    exact Iff.symm (Nat.le_log2 h0)
  have hcount := countP_range_le (Nat.log2 v) 33 (by omega)
  unfold CLZ
  rw [hcongr, hcount]
  omega

theorem testBit_log2_self {v : Nat} (h0 : v ≠ 0) :
    v.testBit (Nat.log2 v) = true := by
  have h1 : 2 ^ Nat.log2 v ≤ v := Nat.log2_self_le h0
  have h2 : v < 2 ^ (Nat.log2 v + 1) := Nat.lt_log2_self
  have hdiv : v / 2 ^ Nat.log2 v = 1 := by
    refine Nat.div_eq_of_lt_le (by omega) ?_
    have : (1 + 1) * 2 ^ Nat.log2 v = 2 ^ (Nat.log2 v + 1) := by
      rw [Nat.pow_succ]; ring
    omega
  rw [Nat.testBit_to_div_mod, hdiv]
  decide

theorem testBit_gt_log2 {v i : Nat} (hi : Nat.log2 v < i) :
    v.testBit i = false := by
  refine Nat.testBit_lt_two_pow ?_
  have h2 : v < 2 ^ (Nat.log2 v + 1) := Nat.lt_log2_self
  have : 2 ^ (Nat.log2 v + 1) ≤ 2 ^ i := Nat.pow_le_pow_right (by omega) (by omega)
  omega

theorem highBit_shift {v : Nat} (h0 : v ≠ 0) (h32 : v < 2 ^ 32) :
    CLASS_HIGH_BIT >>> CLZ v = 2 ^ Nat.log2 v := by
  have hlog : Nat.log2 v < 32 := (Nat.log2_lt h0).mpr h32
  rw [CLZ_eq h0 h32]
  unfold CLASS_HIGH_BIT
  rw [Nat.shiftRight_eq_div_pow, Nat.pow_div (by omega) (by omega)]
  congr 1
  omega

theorem clearTop_testBit {v : Nat} (h0 : v ≠ 0) (h32 : v < 2 ^ 32) (i : Nat) :
    (clearTop v).testBit i = (v.testBit i && !(decide (i = Nat.log2 v))) := by
  have hlog : Nat.log2 v < 32 := (Nat.log2_lt h0).mpr h32
  unfold clearTop
  rw [highBit_shift h0 h32]
  rw [Nat.testBit_and, Nat.testBit_xor, Nat.testBit_two_pow_sub_one, Nat.testBit_two_pow]
  by_cases hi32 : i < 32
  · by_cases hil : i = Nat.log2 v
    · subst hil; simp [hi32]
    · have : ¬ (Nat.log2 v = i) := fun hc => hil hc.symm
      simp [hi32, this, hil]
  · have hvi : v.testBit i = false := Nat.testBit_lt_two_pow (by
      have : (2 : Nat) ^ 32 ≤ 2 ^ i := Nat.pow_le_pow_right (by omega) (by omega)
      omega)
    simp [hvi]

theorem clearTop_lt {v : Nat} (h0 : v ≠ 0) (h32 : v < 2 ^ 32) :
    clearTop v < v := by
  refine Nat.lt_of_testBit (Nat.log2 v) ?_ (testBit_log2_self h0) ?_
  · rw [clearTop_testBit h0 h32]
    simp
  · intro j hj
    rw [clearTop_testBit h0 h32]
    have : ¬ (j = Nat.log2 v) := by omega
    simp [this]

theorem clearTop_le (v : Nat) : clearTop v ≤ v := Nat.and_le_left

theorem setBitsDesc_filter_split {q q' : Nat → Bool} {l : Nat} :
    ∀ n, l < n → q l = true → q' l = false →
    (∀ p, p < n → p ≠ l → q' p = q p) →
    (∀ p, l < p → p < n → q p = false) →
    (List.range n).filter q = (List.range n).filter q' ++ [l] := by
  intro n
  induction n with
  | zero => omega
  | succ n ih =>
    intro hln hq hq' hagree hhigh
    rw [List.range_succ, List.filter_append, List.filter_append]
    by_cases hl : l = n
    · subst hl
      have hcongr : (List.range l).filter q = (List.range l).filter q' := by
        refine List.filter_congr ?_
        intro x hx
        simp only [List.mem_range] at hx
        exact (hagree x (by omega) (by omega)).symm
      simp [hcongr, hq, hq']
    · have hlt : l < n := by omega
      have hqn : q n = false := hhigh n (by omega) (by omega)
      have hq'n : q' n = false := by rw [hagree n (by omega) (fun hc => hl hc.symm)]; exact hqn
      rw [ih hlt hq hq' (fun p hp => hagree p (by omega)) (fun p hp1 hp2 => hhigh p hp1 (by omega))]
      simp [hqn, hq'n]

theorem setBitsDesc_cons {v : Nat} (h0 : v ≠ 0) (h32 : v < 2 ^ 32) :
    setBitsDesc v = Nat.log2 v :: setBitsDesc (clearTop v) := by
  have hlog : Nat.log2 v < 32 := (Nat.log2_lt h0).mpr h32
  unfold setBitsDesc
  have hsplit : (List.range 32).filter (fun p => v.testBit p) =
      (List.range 32).filter (fun p => (clearTop v).testBit p) ++ [Nat.log2 v] := by
    refine setBitsDesc_filter_split 32 hlog (testBit_log2_self h0) ?_ ?_ ?_
    · rw [clearTop_testBit h0 h32]; simp
    · intro p _ hpl
      rw [clearTop_testBit h0 h32]
      simp [hpl]
    · intro p hp _
      exact testBit_gt_log2 hp
  rw [hsplit, List.reverse_append]
  simp

theorem visitRefBitsF_congr (h : Heap) (obj : Nat) (s : Bool) :
    ∀ f₁ v f₂, v < 2 ^ 32 → v < f₁ → v < f₂ →
    visitRefBitsF h obj s f₁ v = visitRefBitsF h obj s f₂ v := by
  intro f₁
  induction f₁ with
  | zero => omega
  | succ g₁ ih =>
    intro v f₂ h32 hf₁ hf₂
    match f₂, hf₂ with
    | g₂ + 1, _ =>
      by_cases hv : v = 0
      · subst hv; simp [visitRefBitsF]
      · simp only [visitRefBitsF, hv, if_false]
        congr 1
        have hlt := clearTop_lt hv h32
        exact ih (clearTop v) g₂ (by have := clearTop_le v; omega) (by omega) (by omega)

theorem visitRefBits_spec (h : Heap) (obj : Nat) (s : Bool) :
    ∀ v, v < 2 ^ 32 →
    visitRefBits h obj s v = (setBitsDesc v).map (fun p =>
      Event.visit obj (h.fieldObj obj (CLASS_OFFSET_FROM_CLZ (31 - p)))
        (CLASS_OFFSET_FROM_CLZ (31 - p)) s) := by
  intro v
  induction v using Nat.strong_induction_on with
  | _ v ih =>
    intro h32
    by_cases hv : v = 0
    · subst hv
      simp [visitRefBits, visitRefBitsF, setBitsDesc]
    · have hlt := clearTop_lt hv h32
      have hle := clearTop_le v
      have htail : visitRefBitsF h obj s v (clearTop v) = visitRefBits h obj s (clearTop v) := by
        unfold visitRefBits
        exact visitRefBitsF_congr h obj s v (clearTop v) (clearTop v + 1)
          (by omega) (by omega) (by omega)
      rw [visitRefBits, setBitsDesc_cons hv h32, List.map_cons]
      simp only [visitRefBitsF, hv, if_false]
      rw [CLZ_eq hv h32, htail, ih (clearTop v) hlt (by omega)]

theorem visitRefBitsF_staticFlag (h : Heap) (obj : Nat) (s : Bool) :
    ∀ fuel v e, e ∈ visitRefBitsF h obj s fuel v → e.staticFlag = some s := by
  intro fuel
  induction fuel with
  | zero => intro v e he; simp [visitRefBitsF] at he
  | succ g ih =>
    intro v e he
    by_cases hv : v = 0
    · subst hv; simp [visitRefBitsF] at he
    · simp only [visitRefBitsF, hv, if_false, List.mem_cons] at he
      rcases he with he | he
      · subst he; rfl
      · exact ih _ e he

theorem visitSuperWalk_staticFlag (h : Heap) (obj : Nat) (s : Bool) :
    ∀ fuel o e, e ∈ visitSuperWalk h obj s fuel o → e.staticFlag = some s := by
  intro fuel
  induction fuel with
  | zero => intro o e he; cases o <;> simp [visitSuperWalk] at he
  | succ g ih =>
    intro o e he
    cases o with
    | none => simp [visitSuperWalk] at he
    | some k =>
      simp only [visitSuperWalk, List.mem_append, List.mem_map] at he
      rcases he with ⟨off, _, rfl⟩ | he
      · rfl
      · exact ih _ e he

theorem VisitFieldsReferences_staticFlag (h : Heap) (obj v : Nat) (s : Bool) (e : Event)
    (he : e ∈ VisitFieldsReferences h obj v s) : e.staticFlag = some s := by
  simp only [VisitFieldsReferences] at he
  split at he
  · exact visitRefBitsF_staticFlag h obj s _ _ e he
  · exact visitSuperWalk_staticFlag h obj s _ _ e he

theorem VisitFieldsReferences_no_delay (h : Heap) (obj v : Nat) (s : Bool) (o : Nat) :
    Event.delayRef o ∉ VisitFieldsReferences h obj v s := by
  intro hmem
  have := VisitFieldsReferences_staticFlag h obj v s _ hmem
  simp [Event.staticFlag] at this

theorem visitSuperWalk_instance_chain (h : Heap) (obj : Nat) :
    ∀ fuel o ks, classChainF h fuel o = some ks →
    visitSuperWalk h obj false fuel o =
      ks.flatMap (fun k => (h.classInfo k).instanceFields.map fun off =>
        Event.visit obj (h.fieldObj obj off) off false) := by
  intro fuel
  induction fuel with
  | zero =>
    intro o ks hc
    cases o with
    | none =>
      simp only [classChainF, Option.some.injEq] at hc
      subst hc
      simp [visitSuperWalk]
    | some k => simp [classChainF] at hc
  | succ g ih =>
    intro o ks hc
    cases o with
    | none =>
      simp only [classChainF, Option.some.injEq] at hc
      subst hc
      simp [visitSuperWalk]
    | some k =>
      simp only [classChainF] at hc
      cases hcc : classChainF h g (h.classInfo k).superClass with
      | none => rw [hcc] at hc; simp at hc
      | some ks' =>
        rw [hcc] at hc
        simp only [Option.some.injEq] at hc
        subst hc
        simp only [visitSuperWalk, Bool.false_eq_true, if_false, List.flatMap_cons]
        rw [ih _ _ hcc]

/-- Claim C3: when the field-layout encoding value is not the walk-super
sentinel, `VisitFieldsReferences` invokes the visitor exactly once per set
bit of the 32-bit value, processing set bits from most significant to least
significant (`setBitsDesc` lists them in that order), with the field offset
obtained from the bit position `p` by the fixed linear mapping
`(31 - p) * CLASS_OFFSET_ALIGNMENT + CLASS_SMALLEST_OFFSET`, the reference
read from the object at that offset, and the `is_static` flag passed through
unchanged. -/
theorem visitFieldsReferences_fast_path (h : Heap) (obj v : Nat) (s : Bool)
    (h32 : v < 2 ^ 32) (hv : v ≠ CLASS_WALK_SUPER) :
    VisitFieldsReferences h obj v s = (setBitsDesc v).map (fun p =>
      Event.visit obj
        (h.fieldObj obj ((31 - p) * CLASS_OFFSET_ALIGNMENT + CLASS_SMALLEST_OFFSET))
        ((31 - p) * CLASS_OFFSET_ALIGNMENT + CLASS_SMALLEST_OFFSET) s) := by
  have hmod : v % 2 ^ 32 = v := Nat.mod_eq_of_lt h32
  simp only [VisitFieldsReferences, hmod]
  rw [if_pos hv]
  simpa [CLASS_OFFSET_FROM_CLZ] using visitRefBits_spec h obj s v h32

/-- Witness for C3: the encoding 160 (bits 7 and 5) on the concrete heap
yields exactly two visitor invocations, highest bit first, at offsets 104
and 112. -/
theorem visitFieldsReferences_fast_path_witness :
    VisitFieldsReferences wHeap 10 160 false =
      [Event.visit 10 1104 104 false, Event.visit 10 1112 112 false] :=
  (visitFieldsReferences_fast_path wHeap 10 160 false (by decide) (by decide)).trans
    (by decide)

/-- Claim C9: the fast-path bit-scan loop terminates for every 32-bit
encoding value distinct from the sentinel: each iteration clears exactly the
most significant set bit (the cleared value agrees with the old one at every
other bit position), so the value strictly decreases, and the loop performs
exactly one iteration per set bit, hence at most 32 iterations. -/
theorem fast_loop_terminates (h : Heap) (obj v : Nat) (s : Bool)
    (h32 : v < 2 ^ 32) (hv : v ≠ CLASS_WALK_SUPER) :
    (v ≠ 0 →
      (clearTop v).testBit (Nat.log2 v) = false
      ∧ (∀ i, i ≠ Nat.log2 v → (clearTop v).testBit i = v.testBit i)
      ∧ clearTop v < v)
    ∧ (VisitFieldsReferences h obj v s).length = (setBitsDesc v).length
    ∧ (setBitsDesc v).length ≤ 32 := by
  refine ⟨?_, ?_, ?_⟩
  · intro h0
    refine ⟨?_, ?_, clearTop_lt h0 h32⟩
    · rw [clearTop_testBit h0 h32]; simp
    · intro i hi
      rw [clearTop_testBit h0 h32]
      simp [hi]
  · have hmod : v % 2 ^ 32 = v := Nat.mod_eq_of_lt h32
    simp only [VisitFieldsReferences, hmod]
    rw [if_pos hv, visitRefBits_spec h obj s v h32, List.length_map]
  · unfold setBitsDesc
    rw [List.length_reverse]
    calc ((List.range 32).filter fun p => v.testBit p).length
        ≤ (List.range 32).length := List.length_filter_le _ _
      _ = 32 := List.length_range 32

/-- Witness for C9: at the encoding 160 the cleared value drops from 160 to
32, the loop runs exactly twice, and two is at most 32. -/
theorem fast_loop_terminates_witness :
    clearTop 160 < 160
    ∧ (VisitFieldsReferences wHeap 10 160 true).length = (setBitsDesc 160).length
    ∧ (setBitsDesc 160).length ≤ 32 :=
  ⟨((fast_loop_terminates wHeap 10 160 true (by decide) (by decide)).1
      (by decide)).2.2,
   (fast_loop_terminates wHeap 10 160 true (by decide) (by decide)).2⟩

/-- Claim C4: when the field-layout encoding equals the walk-super sentinel,
in instance mode `VisitFieldsReferences` walks from the exact class of the
object (`ks` is its ancestor chain up to the root) and at each level visits
that level's declared reference instance fields in declaration-index order,
while in static mode it visits only the own class's declared static
reference fields and never ascends to an ancestor. -/
theorem visitFieldsReferences_slow_path (h : Heap) (obj kobj : Nat) (ks : List Nat)
    (hchain : classChainF h h.classBound (some (h.classOf obj)) = some ks)
    (hb : 1 ≤ h.classBound) :
    VisitFieldsReferences h obj CLASS_WALK_SUPER false =
      ks.flatMap (fun k => (h.classInfo k).instanceFields.map fun off =>
        Event.visit obj (h.fieldObj obj off) off false)
    ∧ VisitFieldsReferences h kobj CLASS_WALK_SUPER true =
      (h.classInfo kobj).staticFields.map fun off =>
        Event.visit kobj (h.fieldObj kobj off) off true := by
  have hmod : CLASS_WALK_SUPER % 2 ^ 32 = CLASS_WALK_SUPER := by decide
  constructor
  · simp only [VisitFieldsReferences, hmod]
    rw [if_neg (by simp)]
    simp only [Bool.false_eq_true, if_false]
    exact visitSuperWalk_instance_chain h obj h.classBound _ ks hchain
  · simp only [VisitFieldsReferences, hmod]
    rw [if_neg (by simp)]
    match h.classBound, hb with
    | b + 1, _ => simp [visitSuperWalk]

/-- Witness for C4: object 14 of class 6 (ancestor chain 6, 2) is walked
through both hierarchy levels in instance mode, and class 6 in static mode
visits only its own static reference field. -/
theorem visitFieldsReferences_slow_path_witness :
    VisitFieldsReferences wHeap 14 CLASS_WALK_SUPER false =
      [Event.visit 14 1416 16 false, Event.visit 14 1420 20 false,
       Event.visit 14 1408 8 false]
    ∧ VisitFieldsReferences wHeap 6 CLASS_WALK_SUPER true =
      [Event.visit 6 624 24 true] :=
  ⟨((visitFieldsReferences_slow_path wHeap 14 6 [6, 2] (by decide) (by decide)).1).trans
      (by decide),
   ((visitFieldsReferences_slow_path wHeap 14 6 [6, 2] (by decide) (by decide)).2).trans
      (by decide)⟩

/-- Claim C7: in a debug build, invoking `ScanObjectVisit` on an object that
is not marked in the external mark bitmap dumps the heap-space diagnostics
and aborts fatally (the `fatal` outcome, whose flag records that
`DumpSpaces` ran before `LOG(FATAL)`); the scan never continues to an `ok`
outcome. -/
theorem scan_unmarked_debug_fatal (c : Bool) (ms : MarkSweep) (h : Heap) (obj : Nat)
    (hunmarked : h.marked obj = false) :
    ScanObjectVisit true c ms h obj = ScanResult.fatal true obj := by
  simp [ScanObjectVisit, hunmarked]

/-- Witness for C7: scanning the unmarked object 20 of the concrete heap in
a debug build aborts fatally after dumping the spaces. -/
theorem scan_unmarked_debug_fatal_witness :
    ScanObjectVisit true false wMS wHeap 20 = ScanResult.fatal true 20 :=
  scan_unmarked_debug_fatal false wMS wHeap 20 (by decide)

/-- Claim C8: scanning the same object twice over the same heap snapshot
produces the same sequence of visitor and hook invocations both times,
independently of the collector state (same cached meta-class pointer aside)
and of the instrumentation and debug settings; the scan only reads object
fields, which the embedding reflects by never threading a modified heap. -/
theorem scan_read_only_deterministic (h : Heap) (obj : Nat) (ms₁ ms₂ : MarkSweep)
    (d₁ c₁ d₂ c₂ : Bool) (hj : ms₁.java_lang_Class_ = ms₂.java_lang_Class_)
    (hm₁ : d₁ = true → h.marked obj = true) (hm₂ : d₂ = true → h.marked obj = true) :
    (ScanObjectVisit d₁ c₁ ms₁ h obj).events = (ScanObjectVisit d₂ c₂ ms₂ h obj).events := by
  have h1 : (d₁ && !(h.marked obj)) = false := by cases d₁ <;> simp_all
  have h2 : (d₂ && !(h.marked obj)) = false := by cases d₂ <;> simp_all
  simp only [ScanObjectVisit, h1, h2, hj, Bool.false_eq_true, if_false]
  by_cases hc : h.classOf obj = ms₂.java_lang_Class_
  · simp [hc, ScanResult.events]
  · by_cases ha : (h.classInfo (h.classOf obj)).isArrayClass = true
    · simp [hc, ha, ScanResult.events]
    · simp [hc, ha, ScanResult.events]

/-- Witness for C8: scanning object 10 from two different collector states
with different debug and instrumentation settings yields the same trace. -/
theorem scan_read_only_deterministic_witness :
    (ScanObjectVisit true true wMS wHeap 10).events =
      (ScanObjectVisit false false ⟨1, 5, 7, 9⟩ wHeap 10).events :=
  scan_read_only_deterministic wHeap 10 wMS ⟨1, 5, 7, 9⟩ true true false false
    (by decide) (by decide) (by decide)

/-- Claim C10: with scan-type counting enabled, every completed
`ScanObjectVisit` increments exactly one of the three instrumentation
counters, the one determined by the classification of the object
(meta-class, array, or other), leaving the other two unchanged; the
classification if-chain partitions all scanned objects.
(`VisitObjectReferences` takes no collector state at all in this embedding,
so it can touch no counter.) -/
theorem scan_counters (d : Bool) (ms : MarkSweep) (h : Heap) (obj : Nat)
    (hm : d = true → h.marked obj = true) :
    ∃ evs, ScanObjectVisit d true ms h obj = ScanResult.ok evs
      (if h.classOf obj = ms.java_lang_Class_ then
        { ms with class_count_ := ms.class_count_ + 1 }
       else if (h.classInfo (h.classOf obj)).isArrayClass = true then
        { ms with array_count_ := ms.array_count_ + 1 }
       else { ms with other_count_ := ms.other_count_ + 1 }) := by
  have h1 : (d && !(h.marked obj)) = false := by cases d <;> simp_all
  simp only [ScanObjectVisit, h1, Bool.false_eq_true, if_false]
  by_cases hc : h.classOf obj = ms.java_lang_Class_
  · simp only [hc, if_pos rfl]
    exact ⟨_, rfl⟩
  · by_cases ha : (h.classInfo (h.classOf obj)).isArrayClass = true
    · simp only [if_neg hc, ha, if_pos rfl, if_true]
      exact ⟨_, rfl⟩
    · simp only [if_neg hc, if_neg ha]
      exact ⟨_, rfl⟩

/-- Witness for C10: scanning the array object 12 with counting enabled
increments exactly the array counter. -/
theorem scan_counters_witness :
    ∃ evs, ScanObjectVisit false true wMS wHeap 12 = ScanResult.ok evs
      (if wHeap.classOf 12 = wMS.java_lang_Class_ then
        { wMS with class_count_ := wMS.class_count_ + 1 }
       else if (wHeap.classInfo (wHeap.classOf 12)).isArrayClass = true then
        { wMS with array_count_ := wMS.array_count_ + 1 }
       else { wMS with other_count_ := wMS.other_count_ + 1 }) :=
  scan_counters false wMS wHeap 12 (by decide)

/-- Claim C6: scanning an object whose class is the meta-class reports the
instance reference fields of the object with the static flag false and the
own static reference fields of the class with the static flag true, the two
groups concatenated, each exactly once. -/
theorem scan_meta_class (d c : Bool) (ms : MarkSweep) (h : Heap) (obj : Nat)
    (hm : d = true → h.marked obj = true)
    (hmeta : h.classOf obj = ms.java_lang_Class_)
    (_hcanon : ms.java_lang_Class_ = h.javaLangClass) :
    (ScanObjectVisit d c ms h obj).events =
      VisitInstanceFieldsReferences h (h.classOf obj) obj
        ++ VisitStaticFieldsReferences h obj
    ∧ (∀ e ∈ VisitInstanceFieldsReferences h (h.classOf obj) obj,
        e.staticFlag = some false)
    ∧ (∀ e ∈ VisitStaticFieldsReferences h obj, e.staticFlag = some true) := by
  have h1 : (d && !(h.marked obj)) = false := by cases d <;> simp_all
  refine ⟨?_, ?_, ?_⟩
  · simp only [ScanObjectVisit, h1, Bool.false_eq_true, if_false]
    simp [hmeta, VisitClassReferences, ScanResult.events]
  · intro e he
    exact VisitFieldsReferences_staticFlag h obj _ false e he
  · intro e he
    exact VisitFieldsReferences_staticFlag h obj _ true e he

/-- Witness for C6: scanning the meta-class object 1 reports its instance
group followed by its static group. -/
theorem scan_meta_class_witness :
    (ScanObjectVisit true true wMS wHeap 1).events =
      VisitInstanceFieldsReferences wHeap (wHeap.classOf 1) 1
        ++ VisitStaticFieldsReferences wHeap 1 :=
  (scan_meta_class true true wMS wHeap 1 (by decide) (by decide) (by decide)).1

/-- Claim C5: for an array object the scan emits exactly one visitor call
for the class-pointer slot with the static flag false, and for an object
array of length N additionally exactly N element calls in ascending index
order at offsets `i * REFERENCE_WIDTH + ARRAY_DATA_OFFSET`, for N + 1 calls
in total. -/
theorem scan_array (d c : Bool) (ms : MarkSweep) (h : Heap) (obj : Nat)
    (hm : d = true → h.marked obj = true)
    (hnotmeta : h.classOf obj ≠ ms.java_lang_Class_)
    (harr : (h.classInfo (h.classOf obj)).isArrayClass = true) :
    (ScanObjectVisit d c ms h obj).events =
      Event.visit obj (h.classOf obj) OBJECT_CLASS_OFFSET false
        :: (if (h.classInfo (h.classOf obj)).isObjectArrayClass then
              (List.range (h.arrayLength obj)).map (fun i =>
                Event.visit obj (h.arrayElem obj i)
                  (i * REFERENCE_WIDTH + ARRAY_DATA_OFFSET) false)
            else [])
    ∧ ((h.classInfo (h.classOf obj)).isObjectArrayClass = true →
        (ScanObjectVisit d c ms h obj).events.length = h.arrayLength obj + 1) := by
  have h1 : (d && !(h.marked obj)) = false := by cases d <;> simp_all
  have hevents : (ScanObjectVisit d c ms h obj).events =
      Event.visit obj (h.classOf obj) OBJECT_CLASS_OFFSET false
        :: (if (h.classInfo (h.classOf obj)).isObjectArrayClass then
              (List.range (h.arrayLength obj)).map (fun i =>
                Event.visit obj (h.arrayElem obj i)
                  (i * REFERENCE_WIDTH + ARRAY_DATA_OFFSET) false)
            else []) := by
    simp only [ScanObjectVisit, h1, Bool.false_eq_true, if_false]
    simp [hnotmeta, harr, ScanResult.events, VisitObjectArrayReferences]
  refine ⟨hevents, ?_⟩
  intro hoa
  rw [hevents, hoa]
  simp

/-- Witness for C5: the object array 12 of length 2 yields the class-pointer
call followed by its two element calls, three calls in total. -/
theorem scan_array_witness :
    (ScanObjectVisit false false wMS wHeap 12).events =
      [Event.visit 12 4 0 false, Event.visit 12 10 12 false,
       Event.visit 12 0 16 false]
    ∧ (ScanObjectVisit false false wMS wHeap 12).events.length =
        wHeap.arrayLength 12 + 1 :=
  ⟨((scan_array false false wMS wHeap 12 (by decide) (by decide) (by decide)).1).trans
      (by decide),
   (scan_array false false wMS wHeap 12 (by decide) (by decide) (by decide)).2
      (by decide)⟩

/-- Claim C2: for an object of a reference-flagged class that is neither an
array nor a class object, `ScanObjectVisit` invokes the deferred-reference
hook on the object exactly once per scan, and the referent slot is never
among the offsets passed to the generic visitor (given that the class
metadata excludes the referent offset from the instance-field scan, which
the class linker establishes outside the excerpt). -/
theorem scan_reference_class (d c : Bool) (ms : MarkSweep) (h : Heap) (obj : Nat)
    (hm : d = true → h.marked obj = true)
    (hnotmeta : h.classOf obj ≠ ms.java_lang_Class_)
    (hnotarr : (h.classInfo (h.classOf obj)).isArrayClass = false)
    (href : (h.classInfo (h.classOf obj)).isReferenceClass = true)
    (hexcl : (h.classInfo (h.classOf obj)).referentOffset ∉
      visitOffsets (VisitOtherReferences h (h.classOf obj) obj)) :
    (ScanObjectVisit d c ms h obj).events.count (Event.delayRef obj) = 1
    ∧ (h.classInfo (h.classOf obj)).referentOffset ∉
        visitOffsets ((ScanObjectVisit d c ms h obj).events) := by
  have h1 : (d && !(h.marked obj)) = false := by cases d <;> simp_all
  have hevents : (ScanObjectVisit d c ms h obj).events =
      VisitOtherReferences h (h.classOf obj) obj ++ [Event.delayRef obj] := by
    simp only [ScanObjectVisit, h1, Bool.false_eq_true, if_false]
    simp [hnotmeta, hnotarr, href, ScanResult.events]
  constructor
  · rw [hevents, List.count_append]
    have hz : (VisitOtherReferences h (h.classOf obj) obj).count (Event.delayRef obj) = 0 :=
      List.count_eq_zero.mpr (VisitFieldsReferences_no_delay h obj _ false obj)
    simp [hz]
  · rw [hevents]
    simpa [visitOffsets, List.filterMap_append] using hexcl

/-- Witness for C2: scanning the reference object 11 invokes the deferred
hook exactly once. -/
theorem scan_reference_class_witness :
    (ScanObjectVisit false false wMS wHeap 11).events.count (Event.delayRef 11) = 1 :=
  (scan_reference_class false false wMS wHeap 11 (by decide) (by decide) (by decide)
    (by decide) (by decide)).1

theorem VisitFieldsReferences_filter_delay (h : Heap) (obj v : Nat) (s : Bool) :
    (VisitFieldsReferences h obj v s).filter Event.isDelay = [] := by
  rw [List.filter_eq_nil_iff]
  intro e he
  have := VisitFieldsReferences_staticFlag h obj v s e he
  cases e <;> simp_all [Event.staticFlag, Event.isDelay]

theorem VisitObjectReferences_no_delay (h : Heap) (obj : Nat) :
    (VisitObjectReferences h obj).filter Event.isDelay = [] := by
  simp only [VisitObjectReferences]
  by_cases hc : h.classOf obj = h.javaLangClass
  · simp [hc, VisitClassReferences, VisitInstanceFieldsReferences,
      VisitStaticFieldsReferences, List.filter_append,
      VisitFieldsReferences_filter_delay]
  · by_cases ha : (h.classInfo (h.classOf obj)).isArrayClass = true
    · simp only [if_neg hc, ha, if_pos rfl, if_true, List.filter_cons]
      have hd : Event.isDelay (Event.visit obj (h.classOf obj) OBJECT_CLASS_OFFSET false)
          = false := rfl
      rw [hd]
      simp only [Bool.false_eq_true, if_false]
      by_cases hoa : (h.classInfo (h.classOf obj)).isObjectArrayClass = true
      · simp [hoa, VisitObjectArrayReferences, List.filter_map, Function.comp,
          Event.isDelay]
      · simp [hoa]
    · simp [if_neg hc, ha, VisitOtherReferences, VisitInstanceFieldsReferences,
        VisitFieldsReferences_filter_delay]

/-- Counterexample for C1: on the reference object 11, `ScanObjectVisit`
invokes the deferred-reference hook while `VisitObjectReferences` does not,
so the two entry points do not produce the same deferred-reference-hook
invocations. -/
theorem scan_vs_visit_hook_counterexample :
    ((ScanObjectVisit false false wMS wHeap 11).events.filter Event.isDelay) ≠
      ((VisitObjectReferences wHeap 11).filter Event.isDelay) := by decide

/-- Claim C1 (amended): given a collector state whose cached meta-class
pointer equals the canonical one, the two entry points classify every object
identically and produce exactly the same sequence of generic-visitor
invocations; they differ, besides the debug marked-precondition check and
the instrumentation counters, in that `ScanObjectVisit` additionally invokes
the deferred-reference hook once on ordinary instances of reference-flagged
classes, whereas `VisitObjectReferences` never invokes the hook. -/
theorem scan_refines_visit_object_references (d c : Bool) (ms : MarkSweep) (h : Heap)
    (obj : Nat) (hm : d = true → h.marked obj = true)
    (hcanon : ms.java_lang_Class_ = h.javaLangClass) :
    (ScanObjectVisit d c ms h obj).events =
      VisitObjectReferences h obj
        ++ (if h.classOf obj ≠ ms.java_lang_Class_
              ∧ (h.classInfo (h.classOf obj)).isArrayClass = false
              ∧ (h.classInfo (h.classOf obj)).isReferenceClass = true
            then [Event.delayRef obj] else [])
    ∧ (VisitObjectReferences h obj).filter Event.isDelay = [] := by
  have h1 : (d && !(h.marked obj)) = false := by cases d <;> simp_all
  refine ⟨?_, VisitObjectReferences_no_delay h obj⟩
  simp only [ScanObjectVisit, VisitObjectReferences, h1, Bool.false_eq_true, if_false,
    ← hcanon]
  by_cases hc : h.classOf obj = ms.java_lang_Class_
  · simp [hc, ScanResult.events]
  · by_cases ha : (h.classInfo (h.classOf obj)).isArrayClass = true
    · simp [hc, ha, ScanResult.events]
    · by_cases hr : (h.classInfo (h.classOf obj)).isReferenceClass = true
      · simp [hc, ha, hr, ScanResult.events]
      · simp [hc, ha, hr, ScanResult.events]

/-- Witness for the amended C1: on the reference object 11 the trace of
`ScanObjectVisit` is the trace of `VisitObjectReferences` followed by the
single hook invocation. -/
theorem scan_refines_visit_object_references_witness :
    (ScanObjectVisit false false wMS wHeap 11).events =
      VisitObjectReferences wHeap 11
        ++ (if wHeap.classOf 11 ≠ wMS.java_lang_Class_
              ∧ (wHeap.classInfo (wHeap.classOf 11)).isArrayClass = false
              ∧ (wHeap.classInfo (wHeap.classOf 11)).isReferenceClass = true
            then [Event.delayRef 11] else []) :=
  (scan_refines_visit_object_references false false wMS wHeap 11 (by decide)
    (by decide)).1

end art
